import Mathlib

/-!
Verification of the `WriteableCanvas`/`Stroke` subsystem of the MathCanvas
repository (src/canvas.py), shallowly embedded in Lean.

Modelling conventions:
* Timestamps, coordinates, widths and colour components are rationals (the
  Python code uses floats only for wall-clock times and geometry; every
  comparison the claims depend on is exact).
* A Kivy `InstructionGroup` is an opaque render handle, modelled as a `Nat`
  identifier allocated from a counter in the state; the widget's `canvas`
  children are the ordered list of attached identifiers.
* The Kivy `Clock` is modelled explicitly: `clockPending` is the list of
  scheduled-and-not-yet-cancelled one-shot events, and
  `Clock.schedule_once` / `event.cancel()` add to / remove from it.  The
  widget field `_unicorn_check_event` is the optional identifier of the
  event it last scheduled (it may be stale: cancelling does not reset it).
* `time.time()` is an explicit `now : ℚ` argument to every operation that
  reads the clock.
* The reward callback `unicorn_callback` is modelled by a registration flag
  plus a log `invocations` recording each call `(now, recent strokes)`.
* The widget sits at position (0,0), so `collide_point x y` is
  `0 ≤ x ≤ width ∧ 0 ≤ y ≤ height`, and it has no child widgets, so the
  `super().on_touch_down(touch)` dispatch never consumes a touch.
-/

namespace MathCanvas

/-- `MAX_UNDO_STACK` from src/config.py. -/
def MAX_UNDO_STACK : Nat := 50

/-- `UNICORN_CHECK_DELAY` (seconds) from src/config.py: 1.5. -/
def UNICORN_CHECK_DELAY : ℚ := mkRat 3 2

/-- `UNICORN_IDLE_THRESHOLD` (seconds) from src/config.py. -/
def UNICORN_IDLE_THRESHOLD : ℚ := 1

/-- `STROKE_RECENT_THRESHOLD` (seconds) from src/config.py. -/
def STROKE_RECENT_THRESHOLD : ℚ := 3

/-- `CONTROL_BAR_TOUCH_THRESHOLD` from src/config.py: 0.88. -/
def CONTROL_BAR_TOUCH_THRESHOLD : ℚ := mkRat 88 100

/-- `DEFAULT_LINE_WIDTH` from src/config.py. -/
def DEFAULT_LINE_WIDTH : ℚ := 4

/-- The keys of the `CANVAS_BACKGROUNDS` dict in src/config.py. -/
def CANVAS_BACKGROUND_KEYS : List String := ["cream", "slate", "mint"]

/-- `DEFAULT_BACKGROUND` from src/config.py. -/
def DEFAULT_BACKGROUND : String := "cream"

/-- The `Stroke` class of src/canvas.py: points, colour, width, the
creation time set by `time.time()` in `__init__`, and the opaque render
instruction handle. -/
structure Stroke where
  points : List (ℚ × ℚ)
  color : List ℚ
  width : ℚ
  time : ℚ
  instruction : Nat
deriving DecidableEq

/-- A serialized stroke entry, i.e. one dict of the `'strokes'` list of an
import/export snapshot.  A field is `none` when the corresponding dict key
is missing or its value has the wrong type (e.g. a non-numeric `width`), in
which case the Python code raises (`KeyError`/`TypeError`) on access. -/
structure StrokeData where
  points : Option (List (ℚ × ℚ))
  color : Option (List ℚ)
  width : Option ℚ
  time : Option ℚ
deriving DecidableEq

/-- The snapshot dict produced by `export_strokes` / consumed by
`import_strokes`. -/
structure Snapshot where
  strokes : List StrokeData
  background : Option String
  timestamp : ℚ
deriving DecidableEq

/-- A one-shot Kivy clock event: its identity and the time it is due. -/
structure TimerEvent where
  id : Nat
  fireTime : ℚ
deriving DecidableEq

/-- The state of one `WriteableCanvas` widget together with the clock events
it has scheduled and the log of reward-callback invocations. -/
structure CanvasState where
  strokes : List Stroke
  undoStack : List Stroke
  currentStrokePoints : List (ℚ × ℚ)
  currentInstruction : Option Nat
  lastDrawTime : ℚ
  unicornCheckEvent : Option Nat
  hasCallback : Bool
  currentColor : List ℚ
  lineWidth : ℚ
  isEraser : Bool
  backgroundKey : String
  canvasInstructions : List Nat
  clockPending : List TimerEvent
  nextId : Nat
  widgetWidth : ℚ
  widgetHeight : ℚ
  invocations : List (ℚ × List Stroke)
deriving DecidableEq

/-- `WriteableCanvas.__init__`: empty stroke lists, no session, no pending
event, no callback, defaults from config; `last_draw_time = time.time()`. -/
def initState (w h t0 : ℚ) : CanvasState where
  strokes := []
  undoStack := []
  currentStrokePoints := []
  currentInstruction := none
  lastDrawTime := t0
  unicornCheckEvent := none
  hasCallback := false
  currentColor := [mkRat 15 100, mkRat 15 100, mkRat 18 100, 1]
  lineWidth := DEFAULT_LINE_WIDTH
  isEraser := false
  backgroundKey := DEFAULT_BACKGROUND
  canvasInstructions := []
  clockPending := []
  nextId := 0
  widgetWidth := w
  widgetHeight := h
  invocations := []

/-- `self._unicorn_check_event.cancel()`: removes the event the handle
refers to from the clock's pending list (the handle itself is not reset). -/
def cancelHandleEvent (s : CanvasState) : CanvasState :=
  { s with clockPending :=
      match s.unicornCheckEvent with
      | none => s.clockPending
      | some i => s.clockPending.filter (fun e => e.id ≠ i) }

/-- `WriteableCanvas.on_touch_down`: outside the widget or in the control-bar
strip (`y > height * CONTROL_BAR_TOUCH_THRESHOLD`) the touch is forwarded;
otherwise a session starts: the point buffer becomes `[(x, y)]` and a fresh
`InstructionGroup` is created and added to the canvas.  (Eraser mode only
changes the colour/width put inside the opaque instruction.) -/
def onTouchDown (x y : ℚ) (s : CanvasState) : CanvasState :=
  if ¬ (0 ≤ x ∧ x ≤ s.widgetWidth ∧ 0 ≤ y ∧ y ≤ s.widgetHeight) then s
  else if s.widgetHeight * CONTROL_BAR_TOUCH_THRESHOLD < y then s
  else
    { s with currentStrokePoints := [(x, y)],
             currentInstruction := some s.nextId,
             canvasInstructions := s.canvasInstructions ++ [s.nextId],
             nextId := s.nextId + 1 }

/-- `WriteableCanvas.on_touch_move`: with an active grab, a point inside the
widget is appended to the live line and the point buffer and
`last_draw_time` is refreshed; a point outside is accepted but dropped. -/
def onTouchMove (now x y : ℚ) (s : CanvasState) : CanvasState :=
  match s.currentInstruction with
  | none => s
  | some _ =>
    if ¬ (0 ≤ x ∧ x ≤ s.widgetWidth ∧ 0 ≤ y ∧ y ≤ s.widgetHeight) then s
    else { s with currentStrokePoints := s.currentStrokePoints ++ [(x, y)],
                  lastDrawTime := now }

/-- The `Stroke(...)` constructor call in `on_touch_up`: the stroke built at
commit time from the session's point buffer and the widget's current colour
and width, stamped with the commit time. -/
def sessionStroke (now : ℚ) (s : CanvasState) (instr : Nat) : Stroke :=
  { points := s.currentStrokePoints, color := s.currentColor,
    width := s.lineWidth, time := now, instruction := instr }

/-- `WriteableCanvas.on_touch_up`: with an active grab, if the point buffer
is non-empty, an instruction exists and eraser mode is off, a `Stroke` is
built from the *current* colour/width, appended to `strokes`, the undo stack
is cleared, the oldest stroke is evicted when `len > MAX_UNDO_STACK`, any
pending unicorn event is cancelled and, if a callback is registered, a new
one is scheduled `UNICORN_CHECK_DELAY` ahead.  The session fields are reset
in every branch. -/
def onTouchUp (now : ℚ) (s : CanvasState) : CanvasState :=
  match s.currentInstruction with
  | none => s
  | some instr =>
    let s1 :=
      if s.currentStrokePoints ≠ [] ∧ s.isEraser = false then
        let strokes1 := s.strokes ++ [sessionStroke now s instr]
        let strokes2 := if MAX_UNDO_STACK < strokes1.length then strokes1.drop 1 else strokes1
        let s2 := cancelHandleEvent { s with strokes := strokes2, undoStack := [] }
        if s2.hasCallback then
          { s2 with clockPending := s2.clockPending ++ [⟨s2.nextId, now + UNICORN_CHECK_DELAY⟩],
                    unicornCheckEvent := some s2.nextId,
                    nextId := s2.nextId + 1 }
        else s2
      else s
    { s1 with currentStrokePoints := [], currentInstruction := none }

/-- The list comprehension of `_check_for_number`: the committed strokes
whose creation time is within `STROKE_RECENT_THRESHOLD` of now (strictly,
`now - s.time < STROKE_RECENT_THRESHOLD`). -/
def recentStrokes (now : ℚ) (s : CanvasState) : List Stroke :=
  s.strokes.filter (fun st => now - st.time < STROKE_RECENT_THRESHOLD)

/-- `WriteableCanvas._check_for_number`, the body of the scheduled event:
reset the event handle; if the idle re-check passes and a callback is
registered and some strokes are recent, invoke the callback with them. -/
def checkForNumber (now : ℚ) (s : CanvasState) : CanvasState :=
  let s1 := { s with unicornCheckEvent := none }
  if UNICORN_IDLE_THRESHOLD ≤ now - s1.lastDrawTime ∧ s1.hasCallback then
    let recent := recentStrokes now s1
    if recent ≠ [] then
      { s1 with invocations := s1.invocations ++ [(now, recent)] }
    else s1
  else s1

/-- The clock firing a scheduled event: if an event with this identifier is
still pending it is consumed and `_check_for_number` runs; a cancelled event
never fires. -/
def fireEvent (eid : Nat) (now : ℚ) (s : CanvasState) : CanvasState :=
  if s.clockPending.any (fun e => e.id = eid) then
    checkForNumber now { s with clockPending := s.clockPending.filter (fun e => e.id ≠ eid) }
  else s

/-- `WriteableCanvas.undo`: pop the last committed stroke onto the undo
stack and detach its instruction; `false` when there is nothing to undo. -/
def undo (s : CanvasState) : CanvasState × Bool :=
  match s.strokes.getLast? with
  | none => (s, false)
  | some stroke =>
    ({ s with strokes := s.strokes.dropLast,
              undoStack := s.undoStack ++ [stroke],
              canvasInstructions := s.canvasInstructions.erase stroke.instruction },
     true)

/-- `WriteableCanvas.redo`: pop the last undone stroke back onto the
committed list and re-attach its instruction; `false` when the undo stack is
empty. -/
def redo (s : CanvasState) : CanvasState × Bool :=
  match s.undoStack.getLast? with
  | none => (s, false)
  | some stroke =>
    ({ s with undoStack := s.undoStack.dropLast,
              strokes := s.strokes ++ [stroke],
              canvasInstructions := s.canvasInstructions ++ [stroke.instruction] },
     true)

/-- `WriteableCanvas.clear_canvas`: cancel a pending unicorn event and reset
the handle, clear the canvas instructions and both stroke lists (the
background re-initialisation touches only `canvas.before`).  The code guards
the cancel/reset with `if self._unicorn_check_event:`; assigning `none`
unconditionally is the same state, since `cancelHandleEvent` is the identity
on the pending list when the handle is `none`. -/
def clearCanvas (s : CanvasState) : CanvasState :=
  { cancelHandleEvent s with unicornCheckEvent := none,
                             canvasInstructions := [], strokes := [], undoStack := [] }

/-- `WriteableCanvas.set_background`: ignore unknown keys, otherwise record
the key (the colour update is rendering-layer only). -/
def setBackground (key : String) (s : CanvasState) : CanvasState :=
  if key ∈ CANVAS_BACKGROUND_KEYS then { s with backgroundKey := key } else s

/-- `Stroke.to_dict`. -/
def Stroke.toDict (st : Stroke) : StrokeData :=
  { points := some st.points, color := some st.color,
    width := some st.width, time := some st.time }

/-- `WriteableCanvas.export_strokes`: every committed stroke serialized in
order, plus the background key and an export timestamp. -/
def exportStrokes (now : ℚ) (s : CanvasState) : Snapshot :=
  { strokes := s.strokes.map Stroke.toDict,
    background := some s.backgroundKey,
    timestamp := now }

/-- Reading the `'color'`, `'points'` and `'width'` entries of one
serialized stroke dict; `none` when any access raises. -/
def parseStrokeData (d : StrokeData) : Option (List (ℚ × ℚ) × List ℚ × ℚ) :=
  match d.points, d.color, d.width with
  | some p, some c, some w => some (p, c, w)
  | _, _, _ => none

/-- The `for stroke_data in data.get('strokes', [])` loop of
`import_strokes`.  Each well-formed entry gets a fresh instruction, is
appended to `strokes` and attached to the canvas (with the stroke's `time`
set to `time.time()` at import).  A malformed entry raises, which stops the
loop: earlier mutations persist and no later entry is processed. -/
def importLoop (now : ℚ) : List StrokeData → CanvasState → CanvasState
  | [], s => s
  | d :: rest, s =>
    match parseStrokeData d with
    | none => s
    | some (p, c, w) =>
      let stroke : Stroke :=
        { points := p, color := c, width := w, time := now, instruction := s.nextId }
      importLoop now rest
        { s with strokes := s.strokes ++ [stroke],
                 canvasInstructions := s.canvasInstructions ++ [s.nextId],
                 nextId := s.nextId + 1 }

/-- `WriteableCanvas.import_strokes`: clear the canvas, apply the snapshot's
background when present, then run the import loop over its stroke entries. -/
def importStrokes (now : ℚ) (snap : Snapshot) (s : CanvasState) : CanvasState :=
  let s1 := clearCanvas s
  let s2 :=
    match snap.background with
    | none => s1
    | some key => setBackground key s1
  importLoop now snap.strokes s2

/-- The public operations on the widget, each tagged with the wall-clock
time `time.time()` would return while it runs.  `setColor`, `setWidth`,
`setEraser` are the property writes the surrounding UI performs;
`setCallback` registers/unregisters `unicorn_callback`; `fire` is the clock
delivering a scheduled event. -/
inductive Act where
  | touchDown (x y : ℚ)
  | touchMove (now x y : ℚ)
  | touchUp (now : ℚ)
  | undoAct
  | redoAct
  | clear
  | setColor (c : List ℚ)
  | setWidth (w : ℚ)
  | setEraser (b : Bool)
  | setCallback (b : Bool)
  | setBg (key : String)
  | importSnap (now : ℚ) (snap : Snapshot)
  | fire (eid : Nat) (now : ℚ)
deriving DecidableEq

/-- One step of the widget under an action. -/
def step (s : CanvasState) (a : Act) : CanvasState :=
  match a with
  | .touchDown x y => onTouchDown x y s
  | .touchMove now x y => onTouchMove now x y s
  | .touchUp now => onTouchUp now s
  | .undoAct => (undo s).1
  | .redoAct => (redo s).1
  | .clear => clearCanvas s
  | .setColor c => { s with currentColor := c }
  | .setWidth w => { s with lineWidth := w }
  | .setEraser b => { s with isEraser := b }
  | .setCallback b => { s with hasCallback := b }
  | .setBg key => setBackground key s
  | .importSnap now snap => importStrokes now snap s
  | .fire eid now => fireEvent eid now s

/-- Running a sequence of actions from a state. -/
def run (s : CanvasState) (acts : List Act) : CanvasState :=
  acts.foldl step s

/-- The serializable content of a stroke: points, colour, width. -/
def strokeFields (st : Stroke) : List (ℚ × ℚ) × List ℚ × ℚ :=
  (st.points, st.color, st.width)

/-- An action whose import snapshot (if any) carries at most
`MAX_UNDO_STACK` stroke entries. -/
def Act.importBounded : Act → Bool
  | .importSnap _ snap => decide (snap.strokes.length ≤ MAX_UNDO_STACK)
  | _ => true

/-- Consistency of the widget's event handle with the clock: either nothing
is pending, or exactly the one event the handle refers to. -/
def InvTimer (s : CanvasState) : Prop :=
  s.clockPending = [] ∨ ∃ e, s.clockPending = [e] ∧ s.unicornCheckEvent = some e.id

/- `Rat.add`, `Rat.sub` and `Rat.mul` are `@[irreducible]` in Batteries;
re-allow unfolding them locally so that concrete runs of the model evaluate
by `decide` (the kernel never respected the attribute anyway). -/
attribute [local semireducible] Rat.add Rat.sub Rat.mul

@[simp] theorem cancelHandleEvent_strokes (s : CanvasState) :
    (cancelHandleEvent s).strokes = s.strokes := rfl

@[simp] theorem cancelHandleEvent_undoStack (s : CanvasState) :
    (cancelHandleEvent s).undoStack = s.undoStack := rfl

@[simp] theorem cancelHandleEvent_unicornCheckEvent (s : CanvasState) :
    (cancelHandleEvent s).unicornCheckEvent = s.unicornCheckEvent := rfl

@[simp] theorem cancelHandleEvent_hasCallback (s : CanvasState) :
    (cancelHandleEvent s).hasCallback = s.hasCallback := rfl

@[simp] theorem cancelHandleEvent_nextId (s : CanvasState) :
    (cancelHandleEvent s).nextId = s.nextId := rfl

@[simp] theorem cancelHandleEvent_invocations (s : CanvasState) :
    (cancelHandleEvent s).invocations = s.invocations := rfl

theorem cancelHandleEvent_pending_of_inv (s : CanvasState) (h : InvTimer s) :
    (cancelHandleEvent s).clockPending = [] := by
  unfold cancelHandleEvent
  rcases h with h0 | ⟨e, hp, he⟩
  · rw [h0]
    cases s.unicornCheckEvent <;> simp
  · rw [hp, he]
    simp

@[simp] theorem checkForNumber_strokes (now : ℚ) (s : CanvasState) :
    (checkForNumber now s).strokes = s.strokes := by
  simp only [checkForNumber]
  split
  · split <;> rfl
  · rfl

@[simp] theorem checkForNumber_undoStack (now : ℚ) (s : CanvasState) :
    (checkForNumber now s).undoStack = s.undoStack := by
  simp only [checkForNumber]
  split
  · split <;> rfl
  · rfl

@[simp] theorem checkForNumber_clockPending (now : ℚ) (s : CanvasState) :
    (checkForNumber now s).clockPending = s.clockPending := by
  simp only [checkForNumber]
  split
  · split <;> rfl
  · rfl

@[simp] theorem checkForNumber_unicornCheckEvent (now : ℚ) (s : CanvasState) :
    (checkForNumber now s).unicornCheckEvent = none := by
  simp only [checkForNumber]
  split
  · split <;> rfl
  · rfl

@[simp] theorem checkForNumber_lastDrawTime (now : ℚ) (s : CanvasState) :
    (checkForNumber now s).lastDrawTime = s.lastDrawTime := by
  simp only [checkForNumber]
  split
  · split <;> rfl
  · rfl

@[simp] theorem checkForNumber_canvasInstructions (now : ℚ) (s : CanvasState) :
    (checkForNumber now s).canvasInstructions = s.canvasInstructions := by
  simp only [checkForNumber]
  split
  · split <;> rfl
  · rfl

theorem fireEvent_strokes (eid : Nat) (now : ℚ) (s : CanvasState) :
    (fireEvent eid now s).strokes = s.strokes := by
  unfold fireEvent
  split <;> simp

theorem fireEvent_undoStack (eid : Nat) (now : ℚ) (s : CanvasState) :
    (fireEvent eid now s).undoStack = s.undoStack := by
  unfold fireEvent
  split <;> simp

theorem fireEvent_of_no_pending (eid : Nat) (now : ℚ) (s : CanvasState)
    (h : s.clockPending = []) : fireEvent eid now s = s := by
  unfold fireEvent
  rw [h]
  simp

@[simp] theorem setBackground_strokes (k : String) (s : CanvasState) :
    (setBackground k s).strokes = s.strokes := by
  unfold setBackground
  split <;> rfl

@[simp] theorem setBackground_undoStack (k : String) (s : CanvasState) :
    (setBackground k s).undoStack = s.undoStack := by
  unfold setBackground
  split <;> rfl

@[simp] theorem setBackground_clockPending (k : String) (s : CanvasState) :
    (setBackground k s).clockPending = s.clockPending := by
  unfold setBackground
  split <;> rfl

@[simp] theorem setBackground_unicornCheckEvent (k : String) (s : CanvasState) :
    (setBackground k s).unicornCheckEvent = s.unicornCheckEvent := by
  unfold setBackground
  split <;> rfl

@[simp] theorem clearCanvas_strokes (s : CanvasState) : (clearCanvas s).strokes = [] := rfl

@[simp] theorem clearCanvas_undoStack (s : CanvasState) : (clearCanvas s).undoStack = [] := rfl

@[simp] theorem clearCanvas_unicornCheckEvent (s : CanvasState) :
    (clearCanvas s).unicornCheckEvent = none := rfl

@[simp] theorem clearCanvas_invocations (s : CanvasState) :
    (clearCanvas s).invocations = s.invocations := rfl

theorem clearCanvas_clockPending (s : CanvasState) :
    (clearCanvas s).clockPending = (cancelHandleEvent s).clockPending := rfl

/-- The import loop touches only `strokes`, `canvasInstructions` and
`nextId`. -/
theorem importLoop_preserves (now : ℚ) (l : List StrokeData) (s : CanvasState) :
    (importLoop now l s).undoStack = s.undoStack ∧
    (importLoop now l s).clockPending = s.clockPending ∧
    (importLoop now l s).unicornCheckEvent = s.unicornCheckEvent ∧
    (importLoop now l s).invocations = s.invocations := by
  induction l generalizing s with
  | nil => simp [importLoop]
  | cons d rest ih =>
    cases hp : parseStrokeData d with
    | none => simp [importLoop, hp]
    | some pcw =>
      obtain ⟨p, c, w⟩ := pcw
      simpa [importLoop, hp] using ih _

/-- What the import loop appends: the parsed fields of the longest prefix of
well-formed entries. -/
theorem importLoop_fields (now : ℚ) (l : List StrokeData) (s : CanvasState) :
    ((importLoop now l s).strokes).map strokeFields =
      s.strokes.map strokeFields ++
        (l.takeWhile fun d => (parseStrokeData d).isSome).filterMap parseStrokeData := by
  induction l generalizing s with
  | nil => simp [importLoop]
  | cons d rest ih =>
    cases hp : parseStrokeData d with
    | none => simp [importLoop, hp, List.takeWhile_cons, List.filterMap_cons]
    | some pcw =>
      obtain ⟨p, c, w⟩ := pcw
      simp [importLoop, hp, List.takeWhile_cons, List.filterMap_cons, ih, strokeFields]

/-- `import_strokes` commits exactly the parsed fields of the longest
well-formed prefix of the snapshot's entries, in order. -/
theorem importStrokes_fields (now : ℚ) (snap : Snapshot) (s : CanvasState) :
    ((importStrokes now snap s).strokes).map strokeFields =
      (snap.strokes.takeWhile fun d => (parseStrokeData d).isSome).filterMap parseStrokeData := by
  unfold importStrokes
  cases hb : snap.background with
  | none => simpa using importLoop_fields now snap.strokes (clearCanvas s)
  | some key =>
    have h := importLoop_fields now snap.strokes (setBackground key (clearCanvas s))
    simpa using h

/-- Committing on pointer-up: the resulting stroke list and the cleared undo
stack, for a session with a live instruction, a non-empty point buffer and
eraser mode off.  The stroke records the pointer-up values of the colour,
width and time. -/
theorem onTouchUp_commit (now : ℚ) (s : CanvasState) (instr : Nat)
    (hI : s.currentInstruction = some instr)
    (hP : s.currentStrokePoints ≠ [])
    (hE : s.isEraser = false) :
    (onTouchUp now s).strokes =
      (if MAX_UNDO_STACK < (s.strokes ++ [sessionStroke now s instr]).length
       then (s.strokes ++ [sessionStroke now s instr]).drop 1
       else s.strokes ++ [sessionStroke now s instr]) ∧
    (onTouchUp now s).undoStack = [] := by
  unfold onTouchUp
  rw [hI]
  simp only [hP, hE, ne_eq, not_false_eq_true, and_self, if_true]
  split <;> split <;> exact ⟨rfl, rfl⟩

theorem onTouchUp_noSession (now : ℚ) (s : CanvasState)
    (h : s.currentInstruction = none) : onTouchUp now s = s := by
  unfold onTouchUp
  rw [h]

theorem onTouchUp_noCommit (now : ℚ) (s : CanvasState) (instr : Nat)
    (hI : s.currentInstruction = some instr)
    (h : ¬ (s.currentStrokePoints ≠ [] ∧ s.isEraser = false)) :
    onTouchUp now s = { s with currentStrokePoints := [], currentInstruction := none } := by
  unfold onTouchUp
  rw [hI]
  simp only [if_neg h]

theorem undo_empty (s : CanvasState) (h : s.strokes = []) : undo s = (s, false) := by
  unfold undo
  rw [h]
  rfl

theorem redo_empty (s : CanvasState) (h : s.undoStack = []) : redo s = (s, false) := by
  unfold redo
  rw [h]
  rfl

/-- The well-formed leading entries of a snapshot are no more numerous than
the snapshot's entries. -/
theorem length_takeWhile_filterMap_le (l : List StrokeData) :
    ((l.takeWhile fun d => (parseStrokeData d).isSome).filterMap parseStrokeData).length
      ≤ l.length := by
  induction l with
  | nil => simp
  | cons d rest ih =>
    cases hp : parseStrokeData d with
    | none => simp [List.takeWhile_cons, hp]
    | some pcw =>
      simp only [List.takeWhile_cons, hp, Option.isSome_some, if_true, List.filterMap_cons,
        List.length_cons]
      omega

/-- Every action of a trace whose import snapshots stay within
`MAX_UNDO_STACK` keeps `len(strokes) + len(_undo_stack)` within
`MAX_UNDO_STACK`. -/
theorem step_sum (s : CanvasState) (a : Act)
    (hb : a.importBounded = true)
    (h : s.strokes.length + s.undoStack.length ≤ MAX_UNDO_STACK) :
    (step s a).strokes.length + (step s a).undoStack.length ≤ MAX_UNDO_STACK := by
  cases a with
  | touchDown x y =>
    simp only [step]
    unfold onTouchDown
    split
    · exact h
    · split
      · exact h
      · exact h
  | touchMove now x y =>
    simp only [step]
    unfold onTouchMove
    split
    · exact h
    · split
      · exact h
      · exact h
  | touchUp now =>
    simp only [step]
    cases hI : s.currentInstruction with
    | none =>
      rw [onTouchUp_noSession now s hI]
      exact h
    | some instr =>
      by_cases hc : s.currentStrokePoints ≠ [] ∧ s.isEraser = false
      · obtain ⟨hcom, hund⟩ := onTouchUp_commit now s instr hI hc.1 hc.2
        rw [hcom, hund]
        split
        · next hM =>
          simp only [List.length_drop, List.length_append, List.length_nil, List.length_cons]
          omega
        · next hM =>
          simp only [List.length_append, List.length_nil, List.length_cons] at hM ⊢
          omega
      · rw [onTouchUp_noCommit now s instr hI hc]
        exact h
  | undoAct =>
    simp only [step]
    unfold undo
    cases hl : s.strokes.getLast? with
    | none => exact h
    | some st =>
      have hne : s.strokes ≠ [] := by
        intro he
        rw [he] at hl
        simp at hl
      have hpos : 0 < s.strokes.length := List.length_pos.mpr hne
      simp only [List.length_dropLast, List.length_append, List.length_cons, List.length_nil]
      omega
  | redoAct =>
    simp only [step]
    unfold redo
    cases hl : s.undoStack.getLast? with
    | none => exact h
    | some st =>
      have hne : s.undoStack ≠ [] := by
        intro he
        rw [he] at hl
        simp at hl
      have hpos : 0 < s.undoStack.length := List.length_pos.mpr hne
      simp only [List.length_dropLast, List.length_append, List.length_cons, List.length_nil]
      omega
  | clear =>
    simp only [step]
    simp [MAX_UNDO_STACK]
  | setColor c => exact h
  | setWidth w => exact h
  | setEraser b => exact h
  | setCallback b => exact h
  | setBg key =>
    simp only [step]
    unfold setBackground
    split
    · exact h
    · exact h
  | importSnap now snap =>
    simp only [step]
    have hu : (importStrokes now snap s).undoStack = [] := by
      unfold importStrokes
      cases hbk : snap.background with
      | none =>
        rw [(importLoop_preserves now snap.strokes (clearCanvas s)).1]
        simp
      | some key =>
        rw [(importLoop_preserves now snap.strokes (setBackground key (clearCanvas s))).1]
        simp
    have hlen := congrArg List.length (importStrokes_fields now snap s)
    rw [List.length_map] at hlen
    have hle : (importStrokes now snap s).strokes.length ≤ snap.strokes.length := by
      rw [hlen]
      exact length_takeWhile_filterMap_le snap.strokes
    have hsnap : snap.strokes.length ≤ MAX_UNDO_STACK := of_decide_eq_true hb
    rw [hu]
    simp only [List.length_nil]
    omega
  | fire eid now =>
    rw [show step s (.fire eid now) = fireEvent eid now s from rfl,
        fireEvent_strokes, fireEvent_undoStack]
    exact h

/-- `step_sum` extended to whole traces. -/
theorem run_sum (acts : List Act) (s : CanvasState)
    (hb : acts.all Act.importBounded = true)
    (h : s.strokes.length + s.undoStack.length ≤ MAX_UNDO_STACK) :
    (run s acts).strokes.length + (run s acts).undoStack.length ≤ MAX_UNDO_STACK := by
  induction acts generalizing s with
  | nil => exact h
  | cons a rest ih =>
    rw [List.all_cons, Bool.and_eq_true] at hb
    have hstep : run s (a :: rest) = run (step s a) rest := rfl
    rw [hstep]
    exact ih (step s a) hb.2 (step_sum s a hb.1 h)

/-- On commit, `on_touch_up` cancels the pending event before scheduling the
new one, so the handle/clock consistency survives. -/
theorem onTouchUp_timer (now : ℚ) (s : CanvasState) (h : InvTimer s) :
    InvTimer (onTouchUp now s) := by
  unfold onTouchUp
  cases hI : s.currentInstruction with
  | none => exact h
  | some instr =>
    by_cases hc : s.currentStrokePoints ≠ [] ∧ s.isEraser = false
    · simp only [hc.1, hc.2, ne_eq, not_false_eq_true, and_self, if_true]
      split <;> split
      · right
        refine ⟨⟨s.nextId, now + UNICORN_CHECK_DELAY⟩, ?_, rfl⟩
        show (cancelHandleEvent s).clockPending ++
            [(⟨s.nextId, now + UNICORN_CHECK_DELAY⟩ : TimerEvent)] =
          [⟨s.nextId, now + UNICORN_CHECK_DELAY⟩]
        rw [cancelHandleEvent_pending_of_inv s h]
        rfl
      · left
        show (cancelHandleEvent s).clockPending = []
        exact cancelHandleEvent_pending_of_inv s h
      · right
        refine ⟨⟨s.nextId, now + UNICORN_CHECK_DELAY⟩, ?_, rfl⟩
        show (cancelHandleEvent s).clockPending ++
            [(⟨s.nextId, now + UNICORN_CHECK_DELAY⟩ : TimerEvent)] =
          [⟨s.nextId, now + UNICORN_CHECK_DELAY⟩]
        rw [cancelHandleEvent_pending_of_inv s h]
        rfl
      · left
        show (cancelHandleEvent s).clockPending = []
        exact cancelHandleEvent_pending_of_inv s h
    · simp only [if_neg hc]
      exact h

/-- Every action preserves handle/clock consistency. -/
theorem step_invTimer (s : CanvasState) (a : Act) (h : InvTimer s) :
    InvTimer (step s a) := by
  cases a with
  | touchDown x y =>
    simp only [step]
    unfold onTouchDown
    split
    · exact h
    · split
      · exact h
      · exact h
  | touchMove now x y =>
    simp only [step]
    unfold onTouchMove
    split
    · exact h
    · split
      · exact h
      · exact h
  | touchUp now => exact onTouchUp_timer now s h
  | undoAct =>
    simp only [step]
    unfold undo
    split
    · exact h
    · exact h
  | redoAct =>
    simp only [step]
    unfold redo
    split
    · exact h
    · exact h
  | clear =>
    simp only [step]
    left
    exact cancelHandleEvent_pending_of_inv s h
  | setColor c => exact h
  | setWidth w => exact h
  | setEraser b => exact h
  | setCallback b => exact h
  | setBg key =>
    simp only [step]
    unfold setBackground
    split
    · exact h
    · exact h
  | importSnap now snap =>
    simp only [step]
    unfold importStrokes
    left
    cases hbk : snap.background with
    | none =>
      rw [(importLoop_preserves now snap.strokes (clearCanvas s)).2.1]
      exact cancelHandleEvent_pending_of_inv s h
    | some key =>
      rw [(importLoop_preserves now snap.strokes (setBackground key (clearCanvas s))).2.1,
          setBackground_clockPending]
      exact cancelHandleEvent_pending_of_inv s h
  | fire eid now =>
    simp only [step]
    unfold fireEvent
    split
    · next hA =>
      left
      rw [checkForNumber_clockPending]
      show s.clockPending.filter _ = []
      rcases h with h0 | ⟨e, hp, he⟩
      · rw [h0]
        rfl
      · rw [hp] at hA ⊢
        simp only [List.any_cons, List.any_nil, Bool.or_false, decide_eq_true_eq] at hA
        simp [hA]
    · exact h

/-- `step_invTimer` extended to whole traces. -/
theorem run_invTimer (acts : List Act) (s : CanvasState) (h : InvTimer s) :
    InvTimer (run s acts) := by
  induction acts generalizing s with
  | nil => exact h
  | cons a rest ih =>
    have hstep : run s (a :: rest) = run (step s a) rest := rfl
    rw [hstep]
    exact ih (step s a) (step_invTimer s a h)

theorem initState_invTimer (w h t0 : ℚ) : InvTimer (initState w h t0) := by
  left
  rfl

/-- C1 counterexample: importing a snapshot with 51 well-formed stroke
entries leaves 51 committed strokes — `import_strokes` enforces no bound, so
the invariant `len(committed) ≤ MAX_UNDO_STACK` is violated in a reachable
state. -/
theorem import_can_exceed_bound :
    (run (initState 100 100 0)
        [Act.importSnap 0
          ⟨List.replicate 51 ⟨some [(0, 0)], some [0, 0, 0, 1], some 1, none⟩, none, 0⟩]).strokes.length
      = 51 ∧ MAX_UNDO_STACK < 51 :=
  ⟨by decide, by decide⟩

/-- C1 (amended): `len(strokes) ≤ MAX_UNDO_STACK` holds in every state
reachable by pointer gestures, undo, redo, clear, property writes, timer
fires and imports of snapshots with at most `MAX_UNDO_STACK` entries;
commit, undo, redo and clear preserve the bound unconditionally, but
`import_strokes` itself imports every well-formed leading entry without
eviction, so only bounded snapshots preserve it. -/
theorem bound_invariant_without_oversized_imports (acts : List Act) (w h t0 : ℚ)
    (hb : acts.all Act.importBounded = true) :
    (run (initState w h t0) acts).strokes.length ≤ MAX_UNDO_STACK := by
  have hsum := run_sum acts (initState w h t0) hb (by simp [initState, MAX_UNDO_STACK])
  omega

theorem bound_invariant_without_oversized_imports_witness :
    ([Act.touchDown 10 10, Act.touchUp 0, Act.undoAct].all Act.importBounded = true) ∧
    (run (initState 100 100 0)
        [Act.touchDown 10 10, Act.touchUp 0, Act.undoAct]).strokes.length ≤ MAX_UNDO_STACK :=
  ⟨by decide, bound_invariant_without_oversized_imports _ 100 100 0 (by decide)⟩

/-- C2 counterexample: a snapshot holding a well-formed entry, a malformed
entry (missing `points`) and another well-formed entry imports only the
first — the loop raises at the malformed entry and the well-formed entry
after it is lost, contradicting "skips only the offending entry". -/
theorem import_aborts_on_malformed_entry :
    ((importStrokes 0
          ⟨[⟨some [(0, 0)], some [0, 0, 0, 1], some 1, none⟩,
            ⟨none, some [0, 0, 0, 1], some 1, none⟩,
            ⟨some [(2, 2)], some [1, 0, 0, 1], some 2, none⟩], none, 0⟩
          (initState 100 100 0)).strokes).map strokeFields
      = [([(0, 0)], [0, 0, 0, 1], 1)] ∧
    (parseStrokeData ⟨some [(2, 2)], some [1, 0, 0, 1], some 2, none⟩).isSome = true :=
  ⟨by decide, by decide⟩

/-- C2 (amended): `import_strokes` imports exactly the longest prefix of
well-formed entries of the snapshot, in order; the first malformed entry
aborts the rest of the import instead of being skipped. -/
theorem import_keeps_only_longest_wellformed_head (now : ℚ) (snap : Snapshot)
    (s : CanvasState) :
    ((importStrokes now snap s).strokes).map strokeFields =
      (snap.strokes.takeWhile fun d => (parseStrokeData d).isSome).filterMap parseStrokeData :=
  importStrokes_fields now snap s

/-- C3 counterexample: start a gesture with the default colour, change
`current_color` mid-gesture, lift the pointer — the committed stroke records
the mid-gesture colour, not the pointer-down one. -/
theorem commit_records_pointer_up_color :
    ((run (initState 100 100 0)
          [Act.touchDown 10 10, Act.setColor [1, 0, 0, 1], Act.touchUp 1]).strokes).map
        Stroke.color = [[1, 0, 0, 1]] ∧
    ([1, 0, 0, 1] : List ℚ) ≠ [mkRat 15 100, mkRat 15 100, mkRat 18 100, 1] :=
  ⟨by decide, by decide⟩

/-- C3 (amended): nothing is captured at pointer-down; the committed stroke
records the values of `current_color` and `line_width` at pointer-up (via
`sessionStroke`), and the value of `is_eraser` at pointer-up decides whether
the gesture commits at all. -/
theorem commit_uses_pointer_up_settings (s : CanvasState) (now : ℚ) (instr : Nat)
    (hI : s.currentInstruction = some instr)
    (hP : s.currentStrokePoints ≠ []) :
    (s.isEraser = false →
      (onTouchUp now s).strokes.getLast? = some (sessionStroke now s instr)) ∧
    (s.isEraser = true → (onTouchUp now s).strokes = s.strokes) := by
  constructor
  · intro hE
    obtain ⟨hcom, -⟩ := onTouchUp_commit now s instr hI hP hE
    rw [hcom]
    split
    · next hM =>
      have hl : 1 ≤ s.strokes.length := by
        simp only [MAX_UNDO_STACK, List.length_append, List.length_cons, List.length_nil] at hM
        omega
      rw [List.drop_append_of_le_length hl]
      exact List.getLast?_concat _
    · exact List.getLast?_concat _
  · intro hE
    have hno := onTouchUp_noCommit now s instr hI (by simp [hE])
    rw [hno]

theorem commit_uses_pointer_up_settings_witness :
    (((run (initState 100 100 0) [Act.touchDown 10 10, Act.setColor [1, 0, 0, 1]]).isEraser
        = false →
      (onTouchUp 1 (run (initState 100 100 0)
          [Act.touchDown 10 10, Act.setColor [1, 0, 0, 1]])).strokes.getLast? =
        some (sessionStroke 1
          (run (initState 100 100 0) [Act.touchDown 10 10, Act.setColor [1, 0, 0, 1]]) 0)) ∧
    ((run (initState 100 100 0) [Act.touchDown 10 10, Act.setColor [1, 0, 0, 1]]).isEraser
        = true →
      (onTouchUp 1 (run (initState 100 100 0)
          [Act.touchDown 10 10, Act.setColor [1, 0, 0, 1]])).strokes =
        (run (initState 100 100 0) [Act.touchDown 10 10, Act.setColor [1, 0, 0, 1]]).strokes)) :=
  commit_uses_pointer_up_settings
    (run (initState 100 100 0) [Act.touchDown 10 10, Act.setColor [1, 0, 0, 1]]) 1 0
    (by decide) (by decide)

/-- C4: for a non-empty committed list, `undo()` then `redo()` both succeed
and restore `strokes` and `_undo_stack` exactly, same strokes in the same
order. -/
theorem undo_redo_inverse (s : CanvasState) (h : s.strokes ≠ []) :
    (undo s).2 = true ∧ (redo (undo s).1).2 = true ∧
    (redo (undo s).1).1.strokes = s.strokes ∧
    (redo (undo s).1).1.undoStack = s.undoStack := by
  have hx : s.strokes.getLast? = some (s.strokes.getLast h) :=
    List.getLast?_eq_getLast s.strokes h
  unfold undo
  rw [hx]
  dsimp only
  unfold redo
  rw [List.getLast?_concat]
  dsimp only
  refine ⟨rfl, rfl, ?_, ?_⟩
  · rw [List.dropLast_append_getLast h]
  · rw [List.dropLast_concat]

theorem undo_redo_inverse_witness :
    (undo (run (initState 100 100 0) [Act.touchDown 10 10, Act.touchUp 0])).2 = true ∧
    (redo (undo (run (initState 100 100 0) [Act.touchDown 10 10, Act.touchUp 0])).1).2 = true ∧
    (redo (undo (run (initState 100 100 0)
        [Act.touchDown 10 10, Act.touchUp 0])).1).1.strokes =
      (run (initState 100 100 0) [Act.touchDown 10 10, Act.touchUp 0]).strokes ∧
    (redo (undo (run (initState 100 100 0)
        [Act.touchDown 10 10, Act.touchUp 0])).1).1.undoStack =
      (run (initState 100 100 0) [Act.touchDown 10 10, Act.touchUp 0]).undoStack :=
  undo_redo_inverse (run (initState 100 100 0) [Act.touchDown 10 10, Act.touchUp 0])
    (by decide)

/-- C5: after an `undo()` that leaves `_undo_stack` non-empty, a successful
commit (pointer-up of a non-eraser gesture with points) empties
`_undo_stack`, and `redo()` right after returns `false` and changes
nothing. -/
theorem commit_clears_redo (s : CanvasState) (now : ℚ) (instr : Nat)
    (hS : s.strokes ≠ [])
    (hI : s.currentInstruction = some instr)
    (hP : s.currentStrokePoints ≠ [])
    (hE : s.isEraser = false) :
    (undo s).1.undoStack ≠ [] ∧
    (onTouchUp now (undo s).1).undoStack = [] ∧
    (redo (onTouchUp now (undo s).1)).2 = false ∧
    (redo (onTouchUp now (undo s).1)).1 = onTouchUp now (undo s).1 := by
  have hx : s.strokes.getLast? = some (s.strokes.getLast hS) :=
    List.getLast?_eq_getLast s.strokes hS
  have hu1 : (undo s).1.undoStack = s.undoStack ++ [s.strokes.getLast hS] := by
    unfold undo
    rw [hx]
  have hI1 : (undo s).1.currentInstruction = some instr := by
    unfold undo
    rw [hx]
    exact hI
  have hP1 : (undo s).1.currentStrokePoints ≠ [] := by
    unfold undo
    rw [hx]
    exact hP
  have hE1 : (undo s).1.isEraser = false := by
    unfold undo
    rw [hx]
    exact hE
  obtain ⟨-, hund⟩ := onTouchUp_commit now (undo s).1 instr hI1 hP1 hE1
  refine ⟨?_, hund, ?_, ?_⟩
  · rw [hu1]
    simp
  · rw [redo_empty _ hund]
  · rw [redo_empty _ hund]

theorem commit_clears_redo_witness :
    (undo (run (initState 100 100 0)
        [Act.touchDown 10 10, Act.touchUp 0, Act.touchDown 20 20])).1.undoStack ≠ [] ∧
    (onTouchUp 5 (undo (run (initState 100 100 0)
        [Act.touchDown 10 10, Act.touchUp 0, Act.touchDown 20 20])).1).undoStack = [] ∧
    (redo (onTouchUp 5 (undo (run (initState 100 100 0)
        [Act.touchDown 10 10, Act.touchUp 0, Act.touchDown 20 20])).1)).2 = false ∧
    (redo (onTouchUp 5 (undo (run (initState 100 100 0)
        [Act.touchDown 10 10, Act.touchUp 0, Act.touchDown 20 20])).1)).1 =
      onTouchUp 5 (undo (run (initState 100 100 0)
        [Act.touchDown 10 10, Act.touchUp 0, Act.touchDown 20 20])).1 :=
  commit_clears_redo (run (initState 100 100 0)
      [Act.touchDown 10 10, Act.touchUp 0, Act.touchDown 20 20]) 5 1
    (by decide) (by decide) (by decide) (by decide)

/-- C6: importing the export of any canvas state reproduces the committed
sequence — identical `points`, `color` and `width` per entry, identical
order (timestamps are refreshed at import). -/
theorem export_import_roundtrip (s sDst : CanvasState) (tExp tImp : ℚ) :
    ((importStrokes tImp (exportStrokes tExp s) sDst).strokes).map strokeFields =
      s.strokes.map strokeFields := by
  rw [importStrokes_fields]
  simp only [exportStrokes]
  have htw : ((s.strokes.map Stroke.toDict).takeWhile fun d => (parseStrokeData d).isSome) =
      s.strokes.map Stroke.toDict := by
    rw [List.takeWhile_eq_self_iff]
    intro d hd
    obtain ⟨st, -, rfl⟩ := List.mem_map.mp hd
    rfl
  rw [htw, List.filterMap_map]
  show List.filterMap (fun st => some (strokeFields st)) s.strokes =
    List.map strokeFields s.strokes
  exact congrFun (List.filterMap_eq_map strokeFields) s.strokes

/-- C7: at most one pending unicorn timer exists in any reachable state
(arming cancels the previous event first), and in the concrete scenario of
two commits 0.5 s apart with no further activity, firing both scheduled
times produces exactly one reward-callback invocation — the first event was
cancelled by the second commit. -/
theorem scheduler_debounce :
    (∀ (acts : List Act) (w h t0 : ℚ),
      (run (initState w h t0) acts).clockPending.length ≤ 1) ∧
    (run (initState 100 100 0)
        [Act.setCallback true, Act.touchDown 10 10, Act.touchUp 0,
         Act.touchDown 20 20, Act.touchUp (mkRat 1 2),
         Act.fire 1 (mkRat 3 2), Act.fire 3 2]).invocations.length = 1 := by
  constructor
  · intro acts w h t0
    rcases run_invTimer acts (initState w h t0) (initState_invTimer w h t0) with h0 | ⟨e, hp, -⟩
    · simp [h0]
    · simp [hp]
  · decide

/-- C8: when the armed timer fires (`_check_for_number`), the reward
callback is invoked exactly when the idle re-check passes, a callback is
registered and some committed stroke is recent, and it receives exactly the
recent strokes; otherwise nothing happens, and in either case the handle is
reset and nothing is re-armed. -/
theorem idle_fire_guard (s : CanvasState) (now : ℚ) :
    (checkForNumber now s).invocations =
      (if UNICORN_IDLE_THRESHOLD ≤ now - s.lastDrawTime ∧ s.hasCallback = true ∧
           recentStrokes now s ≠ []
       then s.invocations ++ [(now, recentStrokes now s)]
       else s.invocations) ∧
    (checkForNumber now s).unicornCheckEvent = none ∧
    (checkForNumber now s).clockPending = s.clockPending ∧
    (checkForNumber now s).strokes = s.strokes ∧
    (checkForNumber now s).undoStack = s.undoStack ∧
    (checkForNumber now s).lastDrawTime = s.lastDrawTime ∧
    (checkForNumber now s).canvasInstructions = s.canvasInstructions := by
  refine ⟨?_, checkForNumber_unicornCheckEvent now s, checkForNumber_clockPending now s,
    checkForNumber_strokes now s, checkForNumber_undoStack now s,
    checkForNumber_lastDrawTime now s, checkForNumber_canvasInstructions now s⟩
  simp only [checkForNumber]
  have hre : recentStrokes now { s with unicornCheckEvent := none } = recentStrokes now s := rfl
  rw [hre]
  by_cases h1 : UNICORN_IDLE_THRESHOLD ≤ now - s.lastDrawTime
  · by_cases h2 : s.hasCallback = true
    · by_cases h3 : recentStrokes now s ≠ []
      · simp [h1, h2, h3]
      · simp [h1, h2, h3]
    · simp [h1, h2]
  · simp [h1]

/-- C9: `undo()` with no committed strokes and `redo()` with an empty undo
stack return `false` and leave the whole state — stroke lists, canvas
instructions, session, timer — unchanged. -/
theorem empty_undo_redo_noop (s : CanvasState) :
    (s.strokes = [] → undo s = (s, false)) ∧
    (s.undoStack = [] → redo s = (s, false)) :=
  ⟨fun h => undo_empty s h, fun h => redo_empty s h⟩

theorem empty_undo_redo_noop_witness :
    undo (initState 100 100 0) = (initState 100 100 0, false) ∧
    redo (initState 100 100 0) = (initState 100 100 0, false) :=
  ⟨(empty_undo_redo_noop (initState 100 100 0)).1 rfl,
   (empty_undo_redo_noop (initState 100 100 0)).2 rfl⟩

/-- C10: from any reachable state, `clear_canvas` leaves the committed list
and undo stack empty, the event handle reset and no pending clock event, so
a timer armed before the clear can never fire afterwards: delivering any
event id after the clear is a no-op. -/
theorem clear_resets_and_disarms (acts : List Act) (w h t0 : ℚ) (eid : Nat) (tf : ℚ) :
    (clearCanvas (run (initState w h t0) acts)).strokes = [] ∧
    (clearCanvas (run (initState w h t0) acts)).undoStack = [] ∧
    (clearCanvas (run (initState w h t0) acts)).unicornCheckEvent = none ∧
    (clearCanvas (run (initState w h t0) acts)).clockPending = [] ∧
    fireEvent eid tf (clearCanvas (run (initState w h t0) acts)) =
      clearCanvas (run (initState w h t0) acts) := by
  have hp : (clearCanvas (run (initState w h t0) acts)).clockPending = [] := by
    rw [clearCanvas_clockPending]
    exact cancelHandleEvent_pending_of_inv _
      (run_invTimer acts (initState w h t0) (initState_invTimer w h t0))
  exact ⟨rfl, rfl, rfl, hp, fireEvent_of_no_pending eid tf _ hp⟩

end MathCanvas
